import Mathlib

/-!
Verification of the StockPulse forecasting dashboard
(repository nolancacheux/forecast_stocks, file src/frontend/app/page.tsx)
against its natural-language specification.

Modelling conventions:
* prices, probabilities and metric values are rationals;
* calendar dates are natural-number day keys (the parsed timestamp of the
  ISO date string; comparisons with < and sorting by getTime coincide);
* JavaScript null / undefined is Option.none;
* the React component is a state machine: each user interaction or fetch
  completion is an event, and after every event the component's effects
  (the two clamping useEffect hooks of page.tsx) run to a fixpoint before
  the next interaction can be issued.
-/

namespace StockPulse

/-- One row of the /api/history response, as in the HistoryItem type of page.tsx. -/
structure HistoryItem where
  Date : Nat
  Close : ℚ
  Open : ℚ
  High : ℚ
  Low : ℚ
  Volume : ℚ
deriving DecidableEq

/-- The confidence_interval object of a prediction: parallel lower/upper series. -/
structure ConfidenceInterval where
  lower : List ℚ
  upper : List ℚ
deriving DecidableEq

/-- The metrics object of a prediction: backtest error scores. -/
structure Metrics where
  mae : ℚ
  rmse : ℚ
  mape : ℚ
deriving DecidableEq

/-- The Prediction type of page.tsx.  A Record of feature importances is an
association list in JavaScript insertion order. -/
structure Prediction where
  ticker : String
  model : String
  direction : String
  probability : ℚ
  feature_importance : Option (List (String × ℚ)) := none
  forecast_dates : Option (List Nat) := none
  forecast_values : Option (List ℚ) := none
  predicted_price : Option ℚ := none
  confidence_interval : Option ConfidenceInterval := none
  metrics : Option Metrics := none
deriving DecidableEq

/-- The items of the Engine Select of page.tsx (lines 363-368): the only model
values the control can emit. -/
def modelOptions : List String := ["xgboost", "random_forest", "linear_regression", "prophet"]

/-- The items of the Asset Select of page.tsx (lines 344-353). -/
def tickerOptions : List String :=
  ["SPY", "QQQ", "IWM", "DIA", "NVDA", "AAPL", "MSFT", "TSLA"]

/-- The model enum exactly as the specification (section 6) words it.  Used only
to compare the spec's request contract with the one the code implements. -/
def specModelEnum : List String :=
  ["gradient_boosted_trees", "random_forest", "linear", "time_series_native"]

/-- The Dashboard component's state (the useState hooks of page.tsx). -/
structure DashState where
  ticker : String
  model : String
  horizon : Int
  referenceDate : Option Nat
  startDate : Option Nat
  history : List HistoryItem
  prediction : Option Prediction
deriving DecidableEq

/-- The initial state of the Dashboard (the useState initialisers). -/
def initState : DashState :=
  { ticker := "SPY", model := "xgboost", horizon := 14, referenceDate := none,
    startDate := none, history := [], prediction := none }

/-- minDate of page.tsx line 156: the date of the first history bar. -/
def minDate (s : DashState) : Option Nat := (s.history.head?).map (·.Date)

/-- maxDate of page.tsx line 157: the date of the last history bar. -/
def maxDate (s : DashState) : Option Nat := (s.history.getLast?).map (·.Date)

/-- fromDate/toDate bounds handed to a Calendar component. -/
structure CalendarBounds where
  fromDate : Option Nat
  toDate : Option Nat
deriving DecidableEq

/-- Bounds of the Start Training From calendar (page.tsx lines 382-389):
fromDate is minDate, toDate is referenceDate falling back to maxDate. -/
def startCalendarBounds (s : DashState) : CalendarBounds :=
  { fromDate := minDate s,
    toDate := match s.referenceDate with | some r => some r | none => maxDate s }

/-- Bounds of the Prediction Point (Backtest) calendar (page.tsx lines 407-414):
fromDate is startDate falling back to minDate, toDate is maxDate. -/
def refCalendarBounds (s : DashState) : CalendarBounds :=
  { fromDate := match s.startDate with | some d => some d | none => minDate s,
    toDate := maxDate s }

/-- A calendar only lets the user pick a day inside its fromDate/toDate range. -/
def withinBounds (b : CalendarBounds) (d : Nat) : Bool :=
  (match b.fromDate with | some lo => decide (lo ≤ d) | none => true) &&
  (match b.toDate with | some hi => decide (d ≤ hi) | none => true)

/-- The horizon Slider (page.tsx line 425) keeps its value an integer between
min 1 and max 60 in steps of 1. -/
def sliderClamp (v : Int) : Int := max 1 (min 60 v)

/-- The interactions and fetch completions the Dashboard reacts to. -/
inductive Event where
  | setTicker (t : String)
  | setModel (m : String)
  | setHorizon (v : Int)
  | setStartDate (d : Option Nat)
  | setReferenceDate (d : Option Nat)
  | resetToLive
  | historyLoaded (h : List HistoryItem)
  | predictionLoaded (p : Prediction)

/-- State update performed by one event.  Select controls only emit their items;
calendars only emit days inside their bounds (deselecting yields none); the
slider clamps to its range; Reset to Live clears referenceDate. -/
def applyEvent (s : DashState) : Event → DashState
  | .setTicker t => if t ∈ tickerOptions then { s with ticker := t } else s
  | .setModel m => if m ∈ modelOptions then { s with model := m } else s
  | .setHorizon v => { s with horizon := sliderClamp v }
  | .setStartDate od =>
      match od with
      | none => { s with startDate := none }
      | some d =>
          if withinBounds (startCalendarBounds s) d then { s with startDate := some d } else s
  | .setReferenceDate od =>
      match od with
      | none => { s with referenceDate := none }
      | some d =>
          if withinBounds (refCalendarBounds s) d then { s with referenceDate := some d } else s
  | .resetToLive => { s with referenceDate := none }
  | .historyLoaded h => { s with history := h }
  | .predictionLoaded p => { s with prediction := some p }

/-- The minDate-clamping effect of page.tsx lines 159-167: when history is
non-empty, an unset or too-early startDate is set to minDate, and a
referenceDate before minDate is set to minDate. -/
def effectMinClamp (s : DashState) : DashState :=
  match minDate s with
  | none => s
  | some m =>
      { s with
        startDate :=
          match s.startDate with
          | none => some m
          | some d => if d < m then some m else some d,
        referenceDate :=
          match s.referenceDate with
          | none => none
          | some r => if r < m then some m else some r }

/-- The referenceDate-clamping effect of page.tsx lines 169-173: a
referenceDate strictly before startDate is raised to startDate. -/
def effectRefClamp (s : DashState) : DashState :=
  match s.referenceDate, s.startDate with
  | some r, some st => if r < st then { s with referenceDate := some st } else s
  | _, _ => s

/-- Both effects, in the order they are declared in the component. -/
def applyEffects (s : DashState) : DashState := effectRefClamp (effectMinClamp s)

/-- One event followed by the effects settling. -/
def step (s : DashState) (e : Event) : DashState := applyEffects (applyEvent s e)

/-- The state reached from the initial render by a sequence of events. -/
def run (events : List Event) : DashState := events.foldl step initState

/-- The JSON body fetchPrediction posts to /api/predict (page.tsx lines
100-114): ticker, model and horizon always, reference_date and start_date only
when the corresponding state is set (each serialised as an ISO date string). -/
structure Payload where
  ticker : String
  model : String
  horizon : Int
  reference_date : Option Nat
  start_date : Option Nat
deriving DecidableEq

/-- The payload built from the current state when Run Forecast is clicked. -/
def fetchPayload (s : DashState) : Payload :=
  { ticker := s.ticker, model := s.model, horizon := s.horizon,
    reference_date := s.referenceDate, start_date := s.startDate }

/- ### Chart data preparation (page.tsx lines 176-224) -/

/-- One row of the chartData array built in page.tsx lines 176-215. -/
structure ChartRow where
  Date : Nat
  Close : Option ℚ
  Forecast : Option ℚ
  ci_lower : Option ℚ
  ci_upper : Option ℚ
  isForecast : Bool
deriving DecidableEq

/-- The initial rows, one per history bar (page.tsx lines 177-184). -/
def initRows (history : List HistoryItem) : List ChartRow :=
  history.map fun h =>
    { Date := h.Date, Close := some h.Close, Forecast := none,
      ci_lower := none, ci_upper := none, isForecast := false }

/-- forecast_values[i] of page.tsx line 193; undefined (none) when the series
is absent or i is out of range. -/
def forecastValAt (p : Prediction) (i : Nat) : Option ℚ :=
  p.forecast_values.bind fun vs => vs[i]?

/-- ci_lower of step i (page.tsx line 194): the prediction's lower series at i
when it yields a value, else forecast value times 0.98 (NaN, modelled none, if
the forecast value itself is undefined). -/
def ciLowerAt (p : Prediction) (i : Nat) : Option ℚ :=
  match p.confidence_interval.bind fun ci => ci.lower[i]? with
  | some l => some l
  | none => (forecastValAt p i).map (· * (98 / 100))

/-- ci_upper of step i (page.tsx line 195): the prediction's upper series at i
when it yields a value, else forecast value times 1.02. -/
def ciUpperAt (p : Prediction) (i : Nat) : Option ℚ :=
  match p.confidence_interval.bind fun ci => ci.upper[i]? with
  | some u => some u
  | none => (forecastValAt p i).map (· * (102 / 100))

/-- One forecast point as assembled inside the loop of page.tsx lines 190-196. -/
structure ForecastPoint where
  date : Nat
  val : Option ℚ
  lo : Option ℚ
  hi : Option ℚ
deriving DecidableEq

/-- The points the forEach of page.tsx line 190 iterates over: each forecast
date with its positional value and bounds.  Nothing is merged unless both
forecast_dates and forecast_values are set (the guard on line 189). -/
def forecastPoints (p : Prediction) : List ForecastPoint :=
  match p.forecast_dates, p.forecast_values with
  | some ds, some _ =>
      ds.enum.map fun pr =>
        { date := pr.2, val := forecastValAt p pr.1,
          lo := ciLowerAt p pr.1, hi := ciUpperAt p pr.1 }
  | _, _ => []

/-- Apply f to the first list entry satisfying q, keeping the rest unchanged
(the findIndex-then-assign of page.tsx lines 191 and 197-201). -/
def updateFirst (q : ChartRow → Bool) (f : ChartRow → ChartRow) : List ChartRow → List ChartRow
  | [] => []
  | x :: xs => if q x then f x :: xs else x :: updateFirst q f xs

/-- The in-place row update of page.tsx lines 198-201: assign the Forecast and
confidence fields of an existing row and mark it as forecast. -/
def applyForecast (fp : ForecastPoint) (item : ChartRow) : ChartRow :=
  { item with Forecast := fp.val, ci_lower := fp.lo, ci_upper := fp.hi, isForecast := true }

/-- The fresh row pushed by page.tsx lines 203-210 for a date not yet in the
data array. -/
def newForecastRow (fp : ForecastPoint) : ChartRow :=
  { Date := fp.date, Close := none, Forecast := fp.val, ci_lower := fp.lo,
    ci_upper := fp.hi, isForecast := true }

/-- Merging one forecast point into the data array (page.tsx lines 191-211):
if a row with the same date exists the first such row is updated in place,
otherwise a fresh forecast row is appended. -/
def mergePoint (data : List ChartRow) (fp : ForecastPoint) : List ChartRow :=
  if data.any fun item => item.Date == fp.date then
    updateFirst (fun item => item.Date == fp.date) (applyForecast fp) data
  else
    data ++ [newForecastRow fp]

/-- chartData of page.tsx lines 176-215: history rows with the forecast points
merged in, sorted ascending by date (Array.prototype.sort with the getTime
difference comparator is a stable ascending sort; mergeSort on the same key
models it). -/
def chartData (history : List HistoryItem) (p : Option Prediction) : List ChartRow :=
  let base := initRows history
  let merged :=
    match p with
    | some pred => (forecastPoints pred).foldl mergePoint base
    | none => base
  merged.mergeSort fun a b => a.Date ≤ b.Date

/-- displayForecastTarget of page.tsx line 224: predicted_price when present
(the ?? operator keeps 0), else — the forecast_values array being truthy even
when empty — its last element (undefined when empty), else null. -/
def displayForecastTarget (p : Prediction) : Option ℚ :=
  match p.predicted_price with
  | some v => some v
  | none =>
      match p.forecast_values with
      | some vs => vs.getLast?
      | none => none

/-- What the Forecast Target card shows. -/
inductive TargetView where
  | price (v : ℚ)
  | na
deriving DecidableEq

/-- The Forecast Target card body (page.tsx lines 579-581): the dollar figure
when displayForecastTarget is truthy (numbers are truthy except 0 and NaN),
otherwise the string N/A. -/
def forecastTargetCard (p : Prediction) : TargetView :=
  match displayForecastTarget p with
  | some v => if v ≠ 0 then .price v else .na
  | none => .na

/-- What the Validation Metrics card shows. -/
inductive MetricsView where
  | shown (mae rmse mape : ℚ)
  | placeholder
deriving DecidableEq

/-- The Validation Metrics card body (page.tsx lines 591-608): the three
metric rows when prediction.metrics is set, else the Available in Backtest
Mode placeholder. -/
def renderMetricsCard (m : Option Metrics) : MetricsView :=
  match m with
  | some m => .shown m.mae m.rmse m.mape
  | none => .placeholder

/-- What the Key Drivers card shows. -/
inductive DriversView where
  | drivers (entries : List (String × ℚ))
  | placeholder
deriving DecidableEq

/-- The Key Drivers card body (page.tsx lines 436-453): the first five
feature-importance entries when the mapping is set, else the No feature data
placeholder. -/
def renderKeyDrivers (fi : Option (List (String × ℚ))) : DriversView :=
  match fi with
  | some entries => .drivers (entries.take 5)
  | none => .placeholder

/- ### Spec-modelled backend fragments (the backend is not under src/) -/

/-- Modelled from the spec: the backend Confidence Interval Estimator of
section 4.5 is missing from src/ (only the frontend is present).  For tree and
linear variants the bound is predicted value plus/minus a non-negative width
(the residual standard deviation scaled by a fixed z-multiplier per step); the
time-series-native variant's native bounds have the same value-minus-width /
value-plus-width shape. -/
def specEstimate (path widths : List ℚ) : ConfidenceInterval :=
  { lower := path.zipWith (· - ·) widths, upper := path.zipWith (· + ·) widths }

/-- A prediction whose confidence interval was produced by the spec's
estimator from its own forecast path. -/
def SpecFormedCI (p : Prediction) : Prop :=
  ∃ widths, (∀ w ∈ widths, 0 ≤ w) ∧
    p.confidence_interval = some (specEstimate (p.forecast_values.getD []) widths)

/-- Modelled from the spec: a daily OHLCV bar of the Bar Store (section 3),
whose implementation is not under src/. -/
structure Bar where
  date : Nat
  open_ : ℚ
  high : ℚ
  low : ℚ
  close : ℚ
  volume : ℚ
deriving DecidableEq

/-- Modelled from the spec: the behavioural surface of one fitted Model
Adapter (section 4.2), absent from src/ — a per-step path prediction, a
direction probability, an optional feature-importance mapping and optional
per-step interval widths. -/
structure AdapterSpec where
  pathStep : Nat → ℚ
  probability : ℚ
  importance : Option (List (String × ℚ))
  widths : Option (List ℚ)

/-- Modelled from the spec: the reference date the Orchestrator resolves
(section 4.3) — the requested date clamped down to the latest available bar
date, defaulting to the latest available bar date. -/
def effectiveRef (bars : List Bar) (rd : Option Nat) : Nat :=
  match rd, (bars.getLast?).map (·.date) with
  | some r, some latest => min r latest
  | some r, none => r
  | none, some latest => latest
  | none, none => 0

/-- Modelled from the spec: the Backtest Evaluator runs exactly when the
effective reference date is strictly earlier than the latest available bar
(section 4.4). -/
def backtestPerformed (bars : List Bar) (rd : Option Nat) : Bool :=
  match (bars.getLast?).map (·.date) with
  | some latest => decide (effectiveRef bars rd < latest)
  | none => false

/-- Modelled from the spec: the realized closes strictly after the effective
reference date, against which a backtest is scored (section 4.4). -/
def futureCloses (bars : List Bar) (ref : Nat) : List ℚ :=
  (bars.filter fun b => ref < b.date).map (·.close)

/-- Modelled from the spec: the Backtest Evaluator's scores (section 4.4).
MAE is the mean absolute error and MAPE the mean absolute fractional error
across the horizon steps; the rmse field stores the mean of the squared errors
(a square root is not rational, and only the presence of the metrics object is
at stake in the claims). -/
def evaluate (path actual : List ℚ) : Metrics :=
  let errs := path.zipWith (· - ·) actual
  let n : ℚ := path.length
  { mae := (errs.map fun e => |e|).sum / n,
    rmse := (errs.map fun e => e * e).sum / n,
    mape := ((errs.zip actual).map fun pr => |pr.1 / pr.2|).sum / n }

/-- Modelled from the spec: the next horizon trading days after the reference
date, read off a trading-calendar enumeration (section 4.3 — strictly
increasing, skipping non-trading days). -/
def forecastDates (tradingDay : Nat → Nat) (ref h : Nat) : List Nat :=
  (List.range h).map fun i => tradingDay (ref + 1 + i)

/-- Modelled from the spec: the adapter's simultaneous multi-step price path,
one predicted value per horizon step (sections 4.2 and 3). -/
def forecastPath (adapter : AdapterSpec) (h : Nat) : List ℚ :=
  (List.range h).map adapter.pathStep

/-- Modelled from the spec: the Forecast Orchestrator (section 4.3) and its
ForecastResult contract (section 3), absent from src/.  Direction compares the
end of the path with the last known close; metrics are attached exactly when
the Backtest Evaluator ran and at least horizon realized closes exist after
the reference date (fewer realized outcomes omit metrics, not an error). -/
def orchestrate (adapter : AdapterSpec) (tradingDay : Nat → Nat) (bars : List Bar)
    (ticker model : String) (horizon : Nat) (rd : Option Nat) : Prediction :=
  let ref := effectiveRef bars rd
  let path := forecastPath adapter horizon
  let lastClose := ((bars.filter fun b => b.date ≤ ref).getLast?).map (·.close)
  let future := futureCloses bars ref
  { ticker := ticker, model := model,
    direction := if lastClose.getD 0 < (path.getLast?).getD 0 then "UP" else "DOWN",
    probability := adapter.probability,
    feature_importance := adapter.importance,
    forecast_dates := some (forecastDates tradingDay ref horizon),
    forecast_values := some path,
    predicted_price := path.getLast?,
    confidence_interval := adapter.widths.map fun w => specEstimate path w,
    metrics :=
      if backtestPerformed bars rd = true ∧ horizon ≤ future.length then
        some (evaluate path (future.take horizon))
      else none }

/- ### Helper lemmas on the state machine -/

theorem effectMinClamp_model (s : DashState) : (effectMinClamp s).model = s.model := by
  unfold effectMinClamp; cases minDate s <;> rfl

theorem effectMinClamp_horizon (s : DashState) : (effectMinClamp s).horizon = s.horizon := by
  unfold effectMinClamp; cases minDate s <;> rfl

/-- The referenceDate-clamping effect either leaves the state unchanged (and
then referenceDate is not before startDate whenever both are set) or raises
referenceDate to the set startDate. -/
theorem effectRefClamp_cases (s : DashState) :
    (effectRefClamp s = s ∧
      ∀ r st, s.referenceDate = some r → s.startDate = some st → st ≤ r) ∨
    (∃ st, s.startDate = some st ∧
      effectRefClamp s = { s with referenceDate := some st }) := by
  rcases h1 : s.referenceDate with _ | r <;> rcases h2 : s.startDate with _ | st
  · refine Or.inl ⟨?_, ?_⟩
    · simp only [effectRefClamp, h1, h2]
    · intro r st hr _; simp at hr
  · refine Or.inl ⟨?_, ?_⟩
    · simp only [effectRefClamp, h1, h2]
    · intro r st hr _; simp at hr
  · refine Or.inl ⟨?_, ?_⟩
    · simp only [effectRefClamp, h1, h2]
    · intro r' st' _ hst'; simp at hst'
  · by_cases hlt : r < st
    · refine Or.inr ⟨st, rfl, ?_⟩
      simp only [effectRefClamp, h1, h2, if_pos hlt]
    · refine Or.inl ⟨?_, ?_⟩
      · simp only [effectRefClamp, h1, h2, if_neg hlt]
      · intro r' st' hr' hst'
        simp only [Option.some.injEq] at hr' hst'
        omega

theorem effectRefClamp_model (s : DashState) : (effectRefClamp s).model = s.model := by
  rcases effectRefClamp_cases s with ⟨h, _⟩ | ⟨st, _, h⟩ <;> rw [h]

theorem effectRefClamp_horizon (s : DashState) : (effectRefClamp s).horizon = s.horizon := by
  rcases effectRefClamp_cases s with ⟨h, _⟩ | ⟨st, _, h⟩ <;> rw [h]

theorem effectRefClamp_startDate (s : DashState) :
    (effectRefClamp s).startDate = s.startDate := by
  rcases effectRefClamp_cases s with ⟨h, _⟩ | ⟨st, _, h⟩ <;> rw [h]

/-- Invariance of a predicate under the event loop. -/
theorem foldl_inv {P : DashState → Prop} (hstep : ∀ s e, P s → P (step s e)) :
    ∀ (evs : List Event) (s : DashState), P s → P (evs.foldl step s) := by
  intro evs
  induction evs with
  | nil => intro s hs; exact hs
  | cons e evs ih => intro s hs; exact ih _ (hstep _ _ hs)

theorem run_model_mem (evs : List Event) : (run evs).model ∈ modelOptions := by
  refine foldl_inv (P := fun s => s.model ∈ modelOptions) ?_ evs initState (by decide)
  intro s e hs
  show (applyEffects (applyEvent s e)).model ∈ modelOptions
  rw [applyEffects, effectRefClamp_model, effectMinClamp_model]
  cases e with
  | setTicker t => simp only [applyEvent]; split <;> exact hs
  | setModel m =>
      simp only [applyEvent]; split
      case isTrue h => exact h
      case isFalse h => exact hs
  | setHorizon v => exact hs
  | setStartDate od => cases od <;> simp only [applyEvent] <;> first | exact hs | (split <;> exact hs)
  | setReferenceDate od =>
      cases od <;> simp only [applyEvent] <;> first | exact hs | (split <;> exact hs)
  | resetToLive => exact hs
  | historyLoaded h => exact hs
  | predictionLoaded p => exact hs

theorem run_horizon_range (evs : List Event) :
    1 ≤ (run evs).horizon ∧ (run evs).horizon ≤ 60 := by
  refine foldl_inv (P := fun s => 1 ≤ s.horizon ∧ s.horizon ≤ 60) ?_ evs initState (by decide)
  intro s e hs
  show 1 ≤ (applyEffects (applyEvent s e)).horizon ∧ (applyEffects (applyEvent s e)).horizon ≤ 60
  rw [applyEffects, effectRefClamp_horizon, effectMinClamp_horizon]
  cases e with
  | setTicker t => simp only [applyEvent]; split <;> exact hs
  | setModel m => simp only [applyEvent]; split <;> exact hs
  | setHorizon v =>
      simp only [applyEvent, sliderClamp]
      constructor <;> omega
  | setStartDate od => cases od <;> simp only [applyEvent] <;> first | exact hs | (split <;> exact hs)
  | setReferenceDate od =>
      cases od <;> simp only [applyEvent] <;> first | exact hs | (split <;> exact hs)
  | resetToLive => exact hs
  | historyLoaded h => exact hs
  | predictionLoaded p => exact hs

/-- Any state that has just settled its effects satisfies startDate ≤ referenceDate
whenever both are set. -/
theorem refClamp_post (t : DashState) (r st : Nat)
    (hr : (effectRefClamp t).referenceDate = some r)
    (hst : (effectRefClamp t).startDate = some st) : st ≤ r := by
  rw [effectRefClamp_startDate] at hst
  rcases effectRefClamp_cases t with ⟨h, hord⟩ | ⟨st0, hst0, h⟩
  · rw [h] at hr
    exact hord r st hr hst
  · rw [h] at hr
    simp only [Option.some.injEq] at hr
    rw [hst0] at hst
    simp only [Option.some.injEq] at hst
    omega

/- ### Helper lemmas on the chart-data merge -/

theorem updateFirst_cons_pos (q : ChartRow → Bool) (f : ChartRow → ChartRow)
    (x : ChartRow) (xs : List ChartRow) (h : q x = true) :
    updateFirst q f (x :: xs) = f x :: xs := by
  simp [updateFirst, h]

theorem updateFirst_cons_neg (q : ChartRow → Bool) (f : ChartRow → ChartRow)
    (x : ChartRow) (xs : List ChartRow) (h : ¬ q x = true) :
    updateFirst q f (x :: xs) = x :: updateFirst q f xs := by
  simp [updateFirst, h]

theorem updateFirst_map_date (q : ChartRow → Bool) (f : ChartRow → ChartRow)
    (hf : ∀ r, (f r).Date = r.Date) :
    ∀ l : List ChartRow, (updateFirst q f l).map (·.Date) = l.map (·.Date) := by
  intro l
  induction l with
  | nil => rfl
  | cons x xs ih =>
      by_cases hx : q x = true
      · rw [updateFirst_cons_pos q f x xs hx]
        simp [hf]
      · rw [updateFirst_cons_neg q f x xs hx]
        simp [ih]

theorem mem_map_date_mergePoint (data : List ChartRow) (fp : ForecastPoint) (x : Nat)
    (hx : x ∈ (mergePoint data fp).map (·.Date)) :
    x ∈ data.map (·.Date) ∨ x = fp.date := by
  unfold mergePoint at hx
  by_cases hc : (data.any fun item => item.Date == fp.date) = true
  · rw [if_pos hc, updateFirst_map_date] at hx
    · exact Or.inl hx
    · intro r; rfl
  · rw [if_neg hc, List.map_append] at hx
    rcases List.mem_append.mp hx with h | h
    · exact Or.inl h
    · simp at h; exact Or.inr h

theorem mergePoint_map_date_nodup (data : List ChartRow) (fp : ForecastPoint)
    (h : (data.map (·.Date)).Nodup) : ((mergePoint data fp).map (·.Date)).Nodup := by
  unfold mergePoint
  by_cases hc : (data.any fun item => item.Date == fp.date) = true
  · rw [if_pos hc, updateFirst_map_date]
    · exact h
    · intro r; rfl
  · rw [if_neg hc, List.map_append]
    have hnotin : fp.date ∉ data.map (·.Date) := by
      intro hmem
      apply hc
      rw [List.any_eq_true]
      obtain ⟨r, hr, hrd⟩ := List.mem_map.mp hmem
      exact ⟨r, hr, by simp [hrd]⟩
    simp [List.nodup_append, h, newForecastRow]
    intro x hx hxeq
    exact hnotin (hxeq ▸ List.mem_map_of_mem (fun r => r.Date) hx)

theorem foldl_mergePoint_nodup (pts : List ForecastPoint) :
    ∀ data : List ChartRow, (data.map (·.Date)).Nodup →
      ((pts.foldl mergePoint data).map (·.Date)).Nodup := by
  induction pts with
  | nil => intro data h; exact h
  | cons p ps ih => intro data h; exact ih _ (mergePoint_map_date_nodup data p h)

theorem foldl_mergePoint_mem (pts : List ForecastPoint) :
    ∀ (data : List ChartRow) (x : Nat), x ∈ (pts.foldl mergePoint data).map (·.Date) →
      x ∈ data.map (·.Date) ∨ x ∈ pts.map (·.date) := by
  induction pts with
  | nil => intro data x hx; exact Or.inl hx
  | cons p ps ih =>
      intro data x hx
      rcases ih (mergePoint data p) x hx with h | h
      · rcases mem_map_date_mergePoint data p x h with h2 | h2
        · exact Or.inl h2
        · exact Or.inr (by simp [h2])
      · exact Or.inr (by simp [h])

/-- A forecast row for date d — its Forecast and confidence fields assigned,
its isForecast flag set — is present in the data array. -/
def HasForecastRow (d : Nat) (data : List ChartRow) : Prop :=
  ∃ r ∈ data, r.Date = d ∧ r.isForecast = true

theorem updateFirst_has (fp : ForecastPoint) :
    ∀ l : List ChartRow, (l.any fun item => item.Date == fp.date) = true →
      HasForecastRow fp.date
        (updateFirst (fun item => item.Date == fp.date) (applyForecast fp) l) := by
  intro l
  induction l with
  | nil => intro h; simp at h
  | cons x xs ih =>
      intro h
      by_cases hx : (x.Date == fp.date) = true
      · rw [updateFirst_cons_pos _ _ x xs hx]
        refine ⟨applyForecast fp x, List.mem_cons_self _ _, ?_, rfl⟩
        simpa using hx
      · rw [updateFirst_cons_neg _ _ x xs hx]
        have h' : (xs.any fun item => item.Date == fp.date) = true := by
          rcases List.any_eq_true.mp h with ⟨r, hr, hrq⟩
          rcases List.mem_cons.mp hr with rfl | hr2
          · exact absurd hrq hx
          · exact List.any_eq_true.mpr ⟨r, hr2, hrq⟩
        obtain ⟨r, hr, hprops⟩ := ih h'
        exact ⟨r, List.mem_cons_of_mem x hr, hprops⟩

theorem updateFirst_mem_or (q : ChartRow → Bool) (f : ChartRow → ChartRow) :
    ∀ (l : List ChartRow) (r : ChartRow), r ∈ l →
      r ∈ updateFirst q f l ∨ f r ∈ updateFirst q f l := by
  intro l
  induction l with
  | nil => intro r hr; simp at hr
  | cons x xs ih =>
      intro r hr
      by_cases hx : q x = true
      · rw [updateFirst_cons_pos q f x xs hx]
        rcases List.mem_cons.mp hr with rfl | hr2
        · exact Or.inr (List.mem_cons_self _ _)
        · exact Or.inl (List.mem_cons_of_mem _ hr2)
      · rw [updateFirst_cons_neg q f x xs hx]
        rcases List.mem_cons.mp hr with rfl | hr2
        · exact Or.inl (List.mem_cons_self _ _)
        · rcases ih r hr2 with h | h
          · exact Or.inl (List.mem_cons_of_mem _ h)
          · exact Or.inr (List.mem_cons_of_mem _ h)

theorem mergePoint_has (data : List ChartRow) (fp : ForecastPoint) :
    HasForecastRow fp.date (mergePoint data fp) := by
  unfold mergePoint
  by_cases hc : (data.any fun item => item.Date == fp.date) = true
  · rw [if_pos hc]
    exact updateFirst_has fp data hc
  · rw [if_neg hc]
    exact ⟨newForecastRow fp, by simp, rfl, rfl⟩

theorem mergePoint_preserves (data : List ChartRow) (fp : ForecastPoint) (d : Nat)
    (h : HasForecastRow d data) : HasForecastRow d (mergePoint data fp) := by
  obtain ⟨r, hr, hd, hfl⟩ := h
  unfold mergePoint
  by_cases hc : (data.any fun item => item.Date == fp.date) = true
  · rw [if_pos hc]
    rcases updateFirst_mem_or _ _ data r hr with h2 | h2
    · exact ⟨r, h2, hd, hfl⟩
    · exact ⟨_, h2, hd, rfl⟩
  · rw [if_neg hc]
    exact ⟨r, List.mem_append_left _ hr, hd, hfl⟩

theorem foldl_mergePoint_preserves (pts : List ForecastPoint) :
    ∀ (data : List ChartRow) (d : Nat), HasForecastRow d data →
      HasForecastRow d (pts.foldl mergePoint data) := by
  induction pts with
  | nil => intro data d h; exact h
  | cons p ps ih => intro data d h; exact ih _ d (mergePoint_preserves data p d h)

theorem foldl_mergePoint_has (pts : List ForecastPoint) :
    ∀ (data : List ChartRow) (d : Nat), d ∈ pts.map (·.date) →
      HasForecastRow d (pts.foldl mergePoint data) := by
  induction pts with
  | nil => intro data d h; simp at h
  | cons p ps ih =>
      intro data d h
      rw [List.map_cons] at h
      rcases List.mem_cons.mp h with rfl | h2
      · exact foldl_mergePoint_preserves ps (mergePoint data p) p.date
          (mergePoint_has data p)
      · exact ih (mergePoint data p) d h2

theorem chartData_perm (history : List HistoryItem) (pred : Prediction) :
    (chartData history (some pred)).Perm
      ((forecastPoints pred).foldl mergePoint (initRows history)) :=
  List.mergeSort_perm _ _

theorem initRows_map_date (history : List HistoryItem) :
    (initRows history).map (·.Date) = history.map (·.Date) := by
  simp [initRows, List.map_map]

/- ### C1 -/

/-- C1 (amended): every forecast request the program issues carries a model
field drawn from the Engine Select's enum, namely xgboost, random_forest,
linear_regression, prophet (the wire names of the spec's gradient_boosted_trees,
random_forest, linear, time_series_native), together with the ticker (string),
the horizon (integer), and start_date/reference_date present exactly when the
corresponding optional date state is set. -/
theorem c1_request_model_enum (evs : List Event) :
    (fetchPayload (run evs)).model ∈ modelOptions ∧
    (fetchPayload (run evs)).ticker = (run evs).ticker ∧
    (fetchPayload (run evs)).horizon = (run evs).horizon ∧
    (fetchPayload (run evs)).reference_date = (run evs).referenceDate ∧
    (fetchPayload (run evs)).start_date = (run evs).startDate :=
  ⟨run_model_mem evs, rfl, rfl, rfl, rfl⟩

/-- C1 counterexample: the request issued from the initial state carries the
model value xgboost, which is not one of the enum names the claim states. -/
theorem c1_counterexample :
    (fetchPayload (run [])).model = "xgboost" ∧ "xgboost" ∉ specModelEnum := by
  constructor
  · rfl
  · decide

/- ### C2 -/

/-- C2: a referenceDate strictly before startDate is corrected by clamping it
up to startDate (the request is not rejected), and every issued request
satisfies start_date ≤ reference_date whenever both dates are present. -/
theorem c2_reference_not_before_start :
    (∀ (s : DashState) (r st : Nat), s.referenceDate = some r → s.startDate = some st →
      r < st → (effectRefClamp s).referenceDate = s.startDate) ∧
    (∀ (evs : List Event) (r st : Nat),
      (fetchPayload (run evs)).reference_date = some r →
      (fetchPayload (run evs)).start_date = some st → st ≤ r) := by
  constructor
  · intro s r st hr hst hlt
    unfold effectRefClamp
    rw [hr, hst]
    simp [hlt]
  · intro evs r st hr hst
    have key : ∀ u : DashState, (∃ t, u = applyEffects t) ∨ u = initState →
        ∀ r st : Nat, u.referenceDate = some r → u.startDate = some st → st ≤ r := by
      rintro u (⟨t, rfl⟩ | rfl)
      · intro r st hr hst
        exact refClamp_post (effectMinClamp t) r st hr hst
      · intro r st hr hst
        simp [initState] at hr
    have reach : (∃ t, run evs = applyEffects t) ∨ run evs = initState := by
      refine foldl_inv (P := fun s => (∃ t, s = applyEffects t) ∨ s = initState) ?_ evs initState
        (Or.inr rfl)
      intro s e _
      exact Or.inl ⟨applyEvent s e, rfl⟩
    exact key (run evs) reach r st hr hst

/-- A concrete run for the C2 witness: history arrives with bars on days 10 and
20 (the effects then set startDate to day 10), and the user picks referenceDate
day 12 from the backtest calendar. -/
def c2Events : List Event :=
  [Event.historyLoaded [⟨10, 1, 1, 1, 1, 1⟩, ⟨20, 2, 2, 2, 2, 2⟩],
   Event.setReferenceDate (some 12)]

/-- A state whose referenceDate 3 precedes its startDate 5. -/
def c2State : DashState :=
  { ticker := "SPY", model := "xgboost", horizon := 14, referenceDate := some 3,
    startDate := some 5, history := [], prediction := none }

theorem c2_witness :
    (effectRefClamp c2State).referenceDate = c2State.startDate ∧ (10 : Nat) ≤ 12 :=
  ⟨c2_reference_not_before_start.1 c2State 3 5 rfl rfl (by decide),
   c2_reference_not_before_start.2 c2Events 12 10 (by decide) (by decide)⟩

/- ### C3 -/

/-- C3: with a non-empty history (earliest bar m, latest bar M): an unset or
too-early startDate is clamped up to m; a referenceDate below m is raised to m;
the reference-date picker's range ends at M, so any date it admits is ≤ M. -/
theorem c3_start_and_reference_clamped (s : DashState) (m M : Nat)
    (hm : minDate s = some m) (hM : maxDate s = some M) :
    ((s.startDate = none ∨ ∃ d, s.startDate = some d ∧ d < m) →
        (effectMinClamp s).startDate = some m) ∧
    (∀ r, s.referenceDate = some r → r < m → (effectMinClamp s).referenceDate = some m) ∧
    (refCalendarBounds s).toDate = some M ∧
    (∀ d, withinBounds (refCalendarBounds s) d = true → d ≤ M) := by
  refine ⟨?_, ?_, ?_, ?_⟩
  · rintro (hnone | ⟨d, hd, hlt⟩) <;> unfold effectMinClamp <;> rw [hm]
    · simp [hnone]
    · simp [hd, hlt]
  · intro r hr hlt
    unfold effectMinClamp
    rw [hm]
    simp [hr, hlt]
  · simp [refCalendarBounds, hM]
  · intro d hd
    unfold withinBounds at hd
    simp only [refCalendarBounds] at hd
    rw [hM] at hd
    rcases h2 : (match s.startDate with | some d => some d | none => minDate s) with _ | lo <;>
      rw [h2] at hd <;> simp at hd
    · exact hd
    · exact hd.2

/-- A concrete state for the C3 witness: bars on days 5 and 9, startDate 3,
referenceDate 2. -/
def c3State : DashState :=
  { ticker := "SPY", model := "xgboost", horizon := 14, referenceDate := some 2,
    startDate := some 3, history := [⟨5, 1, 1, 1, 1, 1⟩, ⟨9, 2, 2, 2, 2, 2⟩],
    prediction := none }

theorem c3_witness :
    (effectMinClamp c3State).startDate = some 5 ∧
    (effectMinClamp c3State).referenceDate = some 5 ∧
    (refCalendarBounds c3State).toDate = some 9 ∧
    (4 : Nat) ≤ 9 := by
  obtain ⟨h1, h2, h3, h4⟩ := c3_start_and_reference_clamped c3State 5 9 rfl rfl
  exact ⟨h1 (Or.inr ⟨3, rfl, by decide⟩), h2 2 rfl (by decide), h3, h4 4 (by decide)⟩

/- ### C7 -/

/-- C7: every issued forecast request's horizon is an integer in [1, 60]; the
slider-held state value is sent unchanged as the payload's horizon. -/
theorem c7_horizon_in_range (evs : List Event) :
    1 ≤ (fetchPayload (run evs)).horizon ∧ (fetchPayload (run evs)).horizon ≤ 60 ∧
    (fetchPayload (run evs)).horizon = (run evs).horizon :=
  ⟨(run_horizon_range evs).1, (run_horizon_range evs).2, rfl⟩

/- ### C5 -/

/-- C5: metrics absence is never an error — the Validation Metrics view renders
for every prediction, showing the three metrics exactly when the metrics
object is present and the placeholder when it is absent — and the orchestrator
attaches the metrics object only when backtesting was performed. -/
theorem c5_metrics_presence (p : Prediction) (adapter : AdapterSpec)
    (tradingDay : Nat → Nat) (bars : List Bar) (ticker model : String)
    (h : Nat) (rd : Option Nat) :
    (∀ m, p.metrics = some m → renderMetricsCard p.metrics = .shown m.mae m.rmse m.mape) ∧
    (p.metrics = none → renderMetricsCard p.metrics = .placeholder) ∧
    ((orchestrate adapter tradingDay bars ticker model h rd).metrics.isSome = true →
      backtestPerformed bars rd = true) := by
  refine ⟨?_, ?_, ?_⟩
  · intro m hm; rw [hm]; rfl
  · intro hm; rw [hm]; rfl
  · intro hsome
    have hm : (orchestrate adapter tradingDay bars ticker model h rd).metrics =
        if backtestPerformed bars rd = true ∧
            h ≤ (futureCloses bars (effectiveRef bars rd)).length then
          some (evaluate (forecastPath adapter h)
            ((futureCloses bars (effectiveRef bars rd)).take h))
        else none := rfl
    rw [hm] at hsome
    by_cases hcond : backtestPerformed bars rd = true ∧
        h ≤ (futureCloses bars (effectiveRef bars rd)).length
    · exact hcond.1
    · rw [if_neg hcond] at hsome
      simp at hsome

def c5PredWith : Prediction :=
  { ticker := "SPY", model := "xgboost", direction := "UP", probability := 1,
    metrics := some ⟨1, 2, 3⟩ }

def c5PredWithout : Prediction :=
  { ticker := "SPY", model := "prophet", direction := "UP", probability := 1 }

def c5Adapter : AdapterSpec :=
  { pathStep := fun _ => 1, probability := 1, importance := none, widths := none }

def c5Bars : List Bar := [⟨1, 1, 1, 1, 1, 1⟩, ⟨2, 1, 1, 1, 2, 1⟩]

theorem c5_witness :
    renderMetricsCard c5PredWith.metrics = .shown 1 2 3 ∧
    renderMetricsCard c5PredWithout.metrics = .placeholder ∧
    backtestPerformed c5Bars (some 1) = true :=
  ⟨(c5_metrics_presence c5PredWith c5Adapter id c5Bars "SPY" "xgboost" 1 (some 1)).1
      ⟨1, 2, 3⟩ rfl,
   (c5_metrics_presence c5PredWithout c5Adapter id c5Bars "SPY" "prophet" 1 (some 1)).2.1 rfl,
   (c5_metrics_presence c5PredWith c5Adapter id c5Bars "SPY" "xgboost" 1 (some 1)).2.2
      (by decide)⟩

/- ### C8 -/

/-- C8: for every valid request over a strictly monotone trading calendar, the
returned prediction's forecast_dates and forecast_values are parallel
sequences of length exactly the horizon, and forecast_dates is strictly
increasing. -/
theorem c8_parallel_series (adapter : AdapterSpec) (tradingDay : Nat → Nat)
    (bars : List Bar) (ticker model : String) (h : Nat) (rd : Option Nat)
    (hmono : StrictMono tradingDay) :
    ∃ ds vs,
      (orchestrate adapter tradingDay bars ticker model h rd).forecast_dates = some ds ∧
      (orchestrate adapter tradingDay bars ticker model h rd).forecast_values = some vs ∧
      ds.length = h ∧ vs.length = h ∧ ds.Pairwise (· < ·) := by
  refine ⟨forecastDates tradingDay (effectiveRef bars rd) h, forecastPath adapter h,
    rfl, rfl, ?_, ?_, ?_⟩
  · simp [forecastDates]
  · simp [forecastPath]
  · rw [forecastDates, List.pairwise_map]
    refine (List.pairwise_lt_range h).imp ?_
    intro a b hab
    exact hmono (by omega)

def c8Adapter : AdapterSpec :=
  { pathStep := fun _ => 1, probability := 1, importance := none, widths := none }

theorem c8_witness :
    ∃ ds vs,
      (orchestrate c8Adapter id [] "SPY" "xgboost" 2 none).forecast_dates = some ds ∧
      (orchestrate c8Adapter id [] "SPY" "xgboost" 2 none).forecast_values = some vs ∧
      ds.length = 2 ∧ vs.length = 2 ∧ ds.Pairwise (· < ·) :=
  c8_parallel_series c8Adapter id [] "SPY" "xgboost" 2 none strictMono_id

/- ### C4 -/

/-- C4 (amended): at every forecast step i whose forecast value v is
non-negative, the displayed bounds bracket v — both when the prediction yields
no interval value at step i (the substitute band v·0.98, v·1.02) and when the
interval comes from the spec's estimator (value ± non-negative width). -/
theorem c4_bounds_bracket (p : Prediction) (i : Nat) (v : ℚ)
    (hv : forecastValAt p i = some v) (hpos : 0 ≤ v)
    (hci : p.confidence_interval = none ∨ SpecFormedCI p) :
    ∃ l u, ciLowerAt p i = some l ∧ ciUpperAt p i = some u ∧ l ≤ v ∧ v ≤ u := by
  have hfrac_lo : v * (98 / 100) ≤ v := by
    have : (98 : ℚ) / 100 ≤ 1 := by norm_num
    calc v * (98 / 100) ≤ v * 1 := by
          exact mul_le_mul_of_nonneg_left this hpos
      _ = v := mul_one v
  have hfrac_hi : v ≤ v * (102 / 100) := by
    have h1 : (1 : ℚ) ≤ 102 / 100 := by norm_num
    calc v = v * 1 := (mul_one v).symm
      _ ≤ v * (102 / 100) := mul_le_mul_of_nonneg_left h1 hpos
  rcases hci with hnone | ⟨widths, hw, hc⟩
  · refine ⟨v * (98 / 100), v * (102 / 100), ?_, ?_, hfrac_lo, hfrac_hi⟩
    · simp [ciLowerAt, hnone, hv]
    · simp [ciUpperAt, hnone, hv]
  · obtain ⟨vs, hvs, hvi⟩ : ∃ vs, p.forecast_values = some vs ∧ vs[i]? = some v := by
      unfold forecastValAt at hv
      rcases h : p.forecast_values with _ | vs
      · rw [h] at hv; simp at hv
      · rw [h] at hv; simp at hv; exact ⟨vs, rfl, hv⟩
    have hpath : p.forecast_values.getD [] = vs := by rw [hvs]; rfl
    rcases hwv : widths[i]? with _ | wi
    · have hl : (specEstimate vs widths).lower[i]? = none := by
        simp [specEstimate, List.getElem?_zipWith', hwv]
      have hu : (specEstimate vs widths).upper[i]? = none := by
        simp [specEstimate, List.getElem?_zipWith', hwv]
      refine ⟨v * (98 / 100), v * (102 / 100), ?_, ?_, hfrac_lo, hfrac_hi⟩
      · simp [ciLowerAt, hc, hpath, hl, hv]
      · simp [ciUpperAt, hc, hpath, hu, hv]
    · have hwi : 0 ≤ wi := hw wi (List.getElem?_mem hwv)
      have hl : (specEstimate vs widths).lower[i]? = some (v - wi) := by
        simp [specEstimate, List.getElem?_zipWith', hwv, hvi]
      have hu : (specEstimate vs widths).upper[i]? = some (v + wi) := by
        simp [specEstimate, List.getElem?_zipWith', hwv, hvi]
      refine ⟨v - wi, v + wi, ?_, ?_, by linarith, by linarith⟩
      · simp [ciLowerAt, hc, hpath, hl]
      · simp [ciUpperAt, hc, hpath, hu]

/-- A prediction with a single forecast value 100 and no interval. -/
def c4Pred : Prediction :=
  { ticker := "SPY", model := "prophet", direction := "UP", probability := 1,
    forecast_dates := some [3], forecast_values := some [100] }

theorem c4_witness :
    ∃ l u, ciLowerAt c4Pred 0 = some l ∧ ciUpperAt c4Pred 0 = some u ∧
      l ≤ 100 ∧ (100 : ℚ) ≤ u :=
  c4_bounds_bracket c4Pred 0 100 rfl (by norm_num) (Or.inl rfl)

/-- A prediction with the single negative forecast value -1 and no interval. -/
def c4CexPred : Prediction :=
  { ticker := "SPY", model := "prophet", direction := "DOWN", probability := 1,
    forecast_dates := some [3], forecast_values := some [-1] }

/-- C4 counterexample: at step 0 of a prediction carrying no interval and the
forecast value -1, the chart's substitute band is lower -0.98, upper -1.02, so
neither lower ≤ forecast value nor forecast value ≤ upper holds as displayed. -/
theorem c4_counterexample :
    chartData [] (some c4CexPred) =
      [{ Date := 3, Close := none, Forecast := some (-1), ci_lower := some (-(49 / 50)),
         ci_upper := some (-(51 / 50)), isForecast := true }] ∧
    ¬ ((-(49 / 50) : ℚ) ≤ -1) ∧ ¬ ((-1 : ℚ) ≤ -(51 / 50)) := by
  refine ⟨?_, by norm_num, by norm_num⟩
  simp [chartData, initRows, forecastPoints, mergePoint, newForecastRow, applyForecast,
    forecastValAt, ciLowerAt, ciUpperAt, c4CexPred, List.mergeSort]
  norm_num

/- ### C6 -/

/-- C6: a prediction without feature_importance renders the Key Drivers
placeholder (an expected case, not a failure), and with feature_importance the
card lists at most the first 5 entries. -/
theorem c6_key_drivers (p : Prediction) :
    (p.feature_importance = none → renderKeyDrivers p.feature_importance = .placeholder) ∧
    (∀ fi, p.feature_importance = some fi →
      renderKeyDrivers p.feature_importance = .drivers (fi.take 5) ∧
      (fi.take 5).length ≤ 5) := by
  constructor
  · intro h; rw [h]; rfl
  · intro fi h; rw [h]
    refine ⟨rfl, ?_⟩
    rw [List.length_take]
    exact min_le_left _ _

def c6PredNone : Prediction :=
  { ticker := "SPY", model := "prophet", direction := "UP", probability := 1 }

def c6PredSome : Prediction :=
  { ticker := "SPY", model := "xgboost", direction := "UP", probability := 1,
    feature_importance := some [("RSI", 1/2), ("EMA_20", 1/4), ("EMA_50", 1/8),
      ("MACD_12_26_9", 1/16), ("ISB_26", 1/32), ("ITS_9", 1/64)] }

theorem c6_witness :
    renderKeyDrivers c6PredNone.feature_importance = .placeholder ∧
    renderKeyDrivers c6PredSome.feature_importance =
      .drivers [("RSI", 1/2), ("EMA_20", 1/4), ("EMA_50", 1/8),
        ("MACD_12_26_9", 1/16), ("ISB_26", 1/32)] := by
  refine ⟨(c6_key_drivers c6PredNone).1 rfl, ?_⟩
  have h := ((c6_key_drivers c6PredSome).2 _ rfl).1
  rw [h]
  rfl

/- ### C9 -/

/-- C9: with unique history dates, chartData is sorted ascending by date and
holds at most one row per date; every row's date comes from the history or the
merged forecast dates, and every merged forecast date has a row whose
isForecast flag is set — when the date already existed in history that row was
updated in place (no duplicate was appended), and only dates absent from
history contribute new rows. -/
theorem c9_chart_rows (history : List HistoryItem) (pred : Prediction)
    (hnd : (history.map (·.Date)).Nodup) :
    (chartData history (some pred)).Pairwise (fun a b => a.Date ≤ b.Date) ∧
    ((chartData history (some pred)).map (·.Date)).Nodup ∧
    (∀ r ∈ chartData history (some pred),
      r.Date ∈ history.map (·.Date) ∨ r.Date ∈ (forecastPoints pred).map (·.date)) ∧
    (∀ d ∈ (forecastPoints pred).map (·.date),
      ∃ r ∈ chartData history (some pred), r.Date = d ∧ r.isForecast = true) := by
  have hperm := chartData_perm history pred
  refine ⟨?_, ?_, ?_, ?_⟩
  · have hs := @List.sorted_mergeSort ChartRow (fun a b => decide (a.Date ≤ b.Date))
      (fun a b c h1 h2 => by simp at h1 h2 ⊢; omega)
      (fun a b => by simp; omega)
      ((forecastPoints pred).foldl mergePoint (initRows history))
    have heq : chartData history (some pred) =
        ((forecastPoints pred).foldl mergePoint (initRows history)).mergeSort
          (fun a b => decide (a.Date ≤ b.Date)) := rfl
    rw [heq]
    exact hs.imp (by intro a b hab; simpa using hab)
  · have hmn := foldl_mergePoint_nodup (forecastPoints pred) (initRows history)
      (by rw [initRows_map_date]; exact hnd)
    exact ((hperm.map (·.Date)).nodup_iff).mpr hmn
  · intro r hr
    have hr2 : r ∈ (forecastPoints pred).foldl mergePoint (initRows history) :=
      hperm.mem_iff.mp hr
    have hmm : r.Date ∈
        ((forecastPoints pred).foldl mergePoint (initRows history)).map (·.Date) :=
      List.mem_map_of_mem _ hr2
    rcases foldl_mergePoint_mem (forecastPoints pred) (initRows history) r.Date hmm with h | h
    · rw [initRows_map_date] at h; exact Or.inl h
    · exact Or.inr h
  · intro d hd
    obtain ⟨r, hr, hprops⟩ :=
      foldl_mergePoint_has (forecastPoints pred) (initRows history) d hd
    exact ⟨r, hperm.mem_iff.mpr hr, hprops⟩

def c9Hist : List HistoryItem := [⟨1, 10, 10, 10, 10, 10⟩, ⟨3, 11, 11, 11, 11, 11⟩]

/-- A prediction whose first forecast date collides with a history date and
whose second is new. -/
def c9Pred : Prediction :=
  { ticker := "SPY", model := "xgboost", direction := "UP", probability := 1,
    forecast_dates := some [3, 5], forecast_values := some [12, 13] }

theorem c9_witness :
    (chartData c9Hist (some c9Pred)).Pairwise (fun a b => a.Date ≤ b.Date) ∧
    ((chartData c9Hist (some c9Pred)).map (·.Date)).Nodup ∧
    (∀ r ∈ chartData c9Hist (some c9Pred),
      r.Date ∈ c9Hist.map (·.Date) ∨ r.Date ∈ (forecastPoints c9Pred).map (·.date)) ∧
    (∀ d ∈ (forecastPoints c9Pred).map (·.date),
      ∃ r ∈ chartData c9Hist (some c9Pred), r.Date = d ∧ r.isForecast = true) :=
  c9_chart_rows c9Hist c9Pred (by decide)

/- ### C10 -/

/-- C10: displayForecastTarget is predicted_price when present; when absent and
forecast_values is non-empty it is the last forecast value; when neither yields
a value the Forecast Target card shows N/A. -/
theorem c10_forecast_target (p : Prediction) :
    (∀ v, p.predicted_price = some v → displayForecastTarget p = some v) ∧
    (∀ vs (hne : vs ≠ []), p.predicted_price = none → p.forecast_values = some vs →
      displayForecastTarget p = some (vs.getLast hne)) ∧
    (p.predicted_price = none → (p.forecast_values = none ∨ p.forecast_values = some []) →
      forecastTargetCard p = .na) := by
  refine ⟨?_, ?_, ?_⟩
  · intro v h
    simp [displayForecastTarget, h]
  · intro vs hne h1 h2
    simp [displayForecastTarget, h1, h2, List.getLast?_eq_getLast vs hne]
  · rintro h1 (h2 | h2) <;>
      simp [forecastTargetCard, displayForecastTarget, h1, h2]

def c10PredPrice : Prediction :=
  { ticker := "SPY", model := "xgboost", direction := "UP", probability := 1,
    predicted_price := some 42, forecast_values := some [1, 2] }

def c10PredPath : Prediction :=
  { ticker := "SPY", model := "xgboost", direction := "UP", probability := 1,
    forecast_values := some [1, 2, 3] }

def c10PredEmpty : Prediction :=
  { ticker := "SPY", model := "xgboost", direction := "UP", probability := 1,
    forecast_values := some [] }

theorem c10_witness :
    displayForecastTarget c10PredPrice = some 42 ∧
    displayForecastTarget c10PredPath = some 3 ∧
    forecastTargetCard c10PredEmpty = .na := by
  refine ⟨(c10_forecast_target c10PredPrice).1 42 rfl, ?_,
    (c10_forecast_target c10PredEmpty).2.2 rfl (Or.inr rfl)⟩
  have h := (c10_forecast_target c10PredPath).2.1 [1, 2, 3] (by simp) rfl rfl
  rw [h]
  rfl

end StockPulse
